import Mathlib

/-!
Verification of the job-search aggregation pipeline.

The development shallowly embeds the pipeline code:
* `BaseConnector.normalize_job_data` embeds `src/platforms/base.py`'s
  `_normalize_job_data`: a raw, possibly incomplete mapping is modelled as a
  record of `Option` fields (a missing key is `none`) and every field is
  default-filled.
* `JobSearchAgent.filter_results` and `JobSearchAgent.run` embed the
  corresponding methods of `src/agent.py`.  A connector's outcome is either
  an exception (`Except.error`) or a list of already-normalized listings,
  exactly what `search_jobs` hands back to the agent.
* `JobConnector.search_jobs` embeds the shared control-flow skeleton of the
  four site connectors (`linkedin.py`, `indeed.py`, `upwork.py`,
  `fiverr.py`): `results = []` / `try: authenticate-if-needed, accumulate
  page extractions / except: swallow / finally: quit driver, reset to None /
  return results`.  Page extractions are abstracted as a list of events that
  either yield a batch of listings or raise.
-/

/-- A raw job mapping as produced by a connector before normalization
(`raw_job` in `base.py`).  A key missing from the Python dict is `none`. -/
structure RawListing where
  id : Option String := none
  title : Option String := none
  company : Option String := none
  location : Option String := none
  description : Option String := none
  url : Option String := none
  salary : Option String := none
  date_posted : Option String := none
  job_type : Option String := none
  experience_level : Option String := none
  skills : Option (List String) := none
  is_remote : Option Bool := none
deriving DecidableEq, Repr

/-- A normalized job listing: the dict returned by `_normalize_job_data`,
plus the `platform` key that `JobSearchAgent.run` may later add (absent,
i.e. `none`, until the pipeline stamps it). -/
structure Listing where
  id : String
  title : String
  company : String
  location : String
  description : String
  url : String
  salary : String
  date_posted : String
  job_type : String
  experience_level : String
  skills : List String
  is_remote : Bool
  platform : Option String := none
deriving DecidableEq, Repr

namespace BaseConnector

/-- Embedding of `BaseConnector._normalize_job_data` (`base.py` lines 79-103):
each canonical field is read with `dict.get` and a default. -/
def normalize_job_data (raw : RawListing) : Listing where
  id := raw.id.getD ""
  title := raw.title.getD ""
  company := raw.company.getD ""
  location := raw.location.getD ""
  description := raw.description.getD ""
  url := raw.url.getD ""
  salary := raw.salary.getD ""
  date_posted := raw.date_posted.getD ""
  job_type := raw.job_type.getD ""
  experience_level := raw.experience_level.getD ""
  skills := raw.skills.getD []
  is_remote := raw.is_remote.getD false
  platform := none

end BaseConnector

/-- Python's `str.lower()`: lowercase character by character.  (`Char.toLower`
lowercases exactly the ASCII letters, which matches `str.lower` on the ASCII
data the code and the spec examples use; it agrees with `String.toLower`.) -/
def pyLower (s : String) : String :=
  ⟨s.data.map Char.toLower⟩

/-- Helper for the substring test: does `needle` occur contiguously in `hay`? -/
def subAux (needle : List Char) : List Char → Bool
  | [] => needle.isEmpty
  | c :: rest => needle.isPrefixOf (c :: rest) || subAux needle rest

/-- `needle in hay` on Python strings: the needle's characters form a
contiguous infix of the hay's characters. -/
def containsSub (hay needle : String) : Bool :=
  subAux needle.data hay.data

/-- The per-job exclusion test inlined in `JobSearchAgent._filter_results`
(`agent.py` line 119): some exclusion keyword, lowercased, occurs in the
lowercased title or the lowercased description. -/
def excludedBy (exclude_keywords : List String) (job : Listing) : Bool :=
  exclude_keywords.any fun kw =>
    containsSub (pyLower job.title) (pyLower kw) ||
    containsSub (pyLower job.description) (pyLower kw)

namespace JobSearchAgent

/-- Embedding of `JobSearchAgent._filter_results` (`agent.py` lines 98-122):
an empty exclusion list short-circuits to the identity, otherwise jobs
matching some exclusion keyword are removed. -/
def filter_results (exclude_keywords : List String) (results : List Listing) :
    List Listing :=
  if exclude_keywords.isEmpty then results
  else results.filter fun job => !excludedBy exclude_keywords job

end JobSearchAgent

/-- The stamping loop of `agent.py` lines 84-85:
`result['platform'] = platform_name`, overwriting any existing value. -/
def stampPlatform (platform_name : String) (job : Listing) : Listing :=
  { job with platform := some platform_name }

/-- The sort key comparison of `agent.py` line 94:
`sort(key=lambda x: x.get('date_posted', ''), reverse=True)`.  In a
descending stable sort, `a` may stay before `b` iff `b`'s key is `≤` `a`'s. -/
def dateLe (a b : Listing) : Bool :=
  decide (b.date_posted ≤ a.date_posted)

/-- The final sort of `agent.py` line 94: Python's stable sort, descending on
`date_posted`, modelled by the (stable) `List.mergeSort`. -/
def sortJobs (results : List Listing) : List Listing :=
  results.mergeSort dateLe

/-- One iteration of the connector loop in `JobSearchAgent.run` (`agent.py`
lines 63-91): an exception from `search_jobs` is caught and contributes
nothing; a successful batch is filtered and then stamped with the
connector's registered name. -/
def processConnector (exclude_keywords : List String)
    (conn : String × Except Unit (List Listing)) : List Listing :=
  match conn.2 with
  | Except.error _ => []
  | Except.ok results =>
      (JobSearchAgent.filter_results exclude_keywords results).map
        (stampPlatform conn.1)

namespace JobSearchAgent

/-- Embedding of `JobSearchAgent.run` (`agent.py` lines 54-96): iterate the
registered connectors in order, extend the accumulator with each processed
batch, then sort the whole accumulated list by `date_posted` descending. -/
def run (exclude_keywords : List String)
    (connectors : List (String × Except Unit (List Listing))) : List Listing :=
  sortJobs (connectors.foldl
    (fun acc conn => acc ++ processConnector exclude_keywords conn) [])

end JobSearchAgent

namespace JobConnector

/-- Connector-local mutable state: the `_driver` field (`some sid` when a
browser session with identity `sid` is held) together with the log of
sessions on which `.quit()` has been called. -/
structure ConnectorState where
  driver : Option Nat
  released : List Nat
deriving DecidableEq, Repr

/-- Embedding of the connectors' `authenticate` (e.g. `linkedin.py` lines
30-79): a fresh session `sid` is acquired; on failure the `except` block
quits it and resets `_driver` to `None`, returning `False`. -/
def authenticate (auth_ok : Bool) (sid : Nat) (st : ConnectorState) :
    Bool × ConnectorState :=
  if auth_ok then (true, { st with driver := some sid })
  else (false, { st with driver := none, released := sid :: st.released })

/-- One page-extraction event inside a connector's `search_jobs` body:
either a batch of listings is appended to `results`, or an exception is
raised which the outer `except` catches, abandoning all later events but
keeping what was accumulated. -/
def collectPages : List (Except Unit (List Listing)) → List Listing
  | [] => []
  | Except.ok batch :: rest => batch ++ collectPages rest
  | Except.error _ :: _ => []

/-- Embedding of the shared `search_jobs` skeleton of `linkedin.py` (lines
95-175), `indeed.py` (lines 65-184), `upwork.py` (lines 94-183) and
`fiverr.py` (lines 88-165): `results = []`; inside `try`, authenticate if no
driver is held (an authentication failure returns the empty `results`), then
accumulate page extractions until the first uncaught exception; the
`finally` block quits any held driver and resets `_driver` to `None`; the
accumulated `results` are returned on every path. -/
def search_jobs (auth_ok : Bool) (sid : Nat)
    (pages : List (Except Unit (List Listing))) (st : ConnectorState) :
    List Listing × ConnectorState :=
  let (ok, st1) :=
    match st.driver with
    | none => authenticate auth_ok sid st
    | some _ => (true, st)
  let results := if ok then collectPages pages else []
  let st2 :=
    match st1.driver with
    | some d => { driver := none, released := d :: st1.released }
    | none => st1
  (results, st2)

end JobConnector

namespace LinkedinConnector

/-- `LinkedinConnector.search_jobs` (`linkedin.py` lines 81-175) follows the
shared skeleton. -/
def search_jobs := JobConnector.search_jobs

end LinkedinConnector

namespace IndeedConnector

/-- `IndeedConnector.search_jobs` (`indeed.py` lines 65-184) follows the
shared skeleton. -/
def search_jobs := JobConnector.search_jobs

end IndeedConnector

namespace UpworkConnector

/-- `UpworkConnector.search_jobs` (`upwork.py` lines 94-183) follows the
shared skeleton. -/
def search_jobs := JobConnector.search_jobs

end UpworkConnector

namespace FiverrConnector

/-- `FiverrConnector.search_jobs` (`fiverr.py` lines 88-165) follows the
shared skeleton. -/
def search_jobs := JobConnector.search_jobs

end FiverrConnector

/-! ### Sample data for concrete scenarios -/

/-- The end-to-end scenario's Connector A raw listing, normalized. -/
def jobPy : Listing := BaseConnector.normalize_job_data
  { title := some "Python Developer", date_posted := some "2024-01-10" }

/-- The end-to-end scenario's Connector B raw listing, normalized. -/
def jobPhp : Listing := BaseConnector.normalize_job_data
  { title := some "PHP Developer", date_posted := some "2024-01-12" }

/-- The spec's exclusion example: a listing titled "Senior PHP Developer". -/
def phpJob : Listing := BaseConnector.normalize_job_data
  { title := some "Senior PHP Developer" }

/-- The spec's exclusion example: a listing titled "Senior Developer" whose
description contains "graphql". -/
def gqlJob : Listing := BaseConnector.normalize_job_data
  { title := some "Senior Developer", description := some "We use graphql and rest" }

/-! ### Helper lemmas -/

theorem subAux_eq_true_iff (n : List Char) (h : List Char) :
    subAux n h = true ↔ n <:+: h := by
  induction h with
  | nil => simp [subAux, List.infix_nil, List.isEmpty_iff]
  | cons c rest ih => simp [subAux, List.infix_cons_iff, ih]

theorem containsSub_iff (hay needle : String) :
    containsSub hay needle = true ↔ needle.data <:+: hay.data :=
  subAux_eq_true_iff needle.data hay.data

theorem pyLower_eq_toLower (s : String) : pyLower s = s.toLower := by
  show pyLower s = String.map Char.toLower s
  rw [String.map_eq]
  rfl

theorem dateLe_trans (a b c : Listing) :
    dateLe a b → dateLe b c → dateLe a c := by
  simp only [dateLe, decide_eq_true_iff]
  exact fun h1 h2 => le_trans h2 h1

theorem dateLe_total (a b : Listing) : dateLe a b || dateLe b a := by
  simp only [dateLe, Bool.or_eq_true, decide_eq_true_iff]
  exact le_total b.date_posted a.date_posted

theorem string_le_empty (s : String) (h : s ≤ "") : s = "" := by
  have h1 : s.toList ≤ "".toList := String.le_iff_toList_le.mp h
  have h2 : "".toList ≤ s.toList := List.nil_le
  exact String.toList_inj.mp (le_antisymm h1 h2)

theorem sortJobs_perm (l : List Listing) : List.Perm (sortJobs l) l :=
  List.mergeSort_perm l dateLe

theorem mem_sortJobs {j : Listing} {l : List Listing} :
    j ∈ sortJobs l ↔ j ∈ l :=
  (sortJobs_perm l).mem_iff

theorem sortJobs_pairwise (l : List Listing) :
    (sortJobs l).Pairwise fun a b => dateLe a b :=
  List.sorted_mergeSort dateLe_trans dateLe_total l

theorem sortJobs_filter_date (l : List Listing) (d : String) :
    (sortJobs l).filter (fun j => decide (j.date_posted = d))
      = l.filter (fun j => decide (j.date_posted = d)) := by
  set p : Listing → Bool := fun j => decide (j.date_posted = d) with hp
  have hpw : (l.filter p).Pairwise fun a b => dateLe a b := by
    apply List.pairwise_of_forall_mem_list
    intro a ha b hb
    have hda : a.date_posted = d := by
      have := (List.mem_filter.mp ha).2
      simpa [hp] using this
    have hdb : b.date_posted = d := by
      have := (List.mem_filter.mp hb).2
      simpa [hp] using this
    simp [dateLe, hda, hdb]
  have hsub : List.Sublist (l.filter p) (sortJobs l) :=
    List.sublist_mergeSort dateLe_trans dateLe_total hpw (List.filter_sublist l)
  have h2 : List.Sublist (l.filter p) ((sortJobs l).filter p) := by
    have h3 := hsub.filter p
    rwa [List.filter_filter,
      (by funext a; cases p a <;> simp : (fun a => p a && p a) = p)] at h3
  have hperm : List.Perm ((sortJobs l).filter p) (l.filter p) :=
    (List.mergeSort_perm l dateLe).filter p
  exact (h2.eq_of_length hperm.length_eq.symm).symm

theorem foldl_append_eq_flatten {α β : Type} (f : α → List β) (l : List α) :
    ∀ acc : List β,
      l.foldl (fun a c => a ++ f c) acc = acc ++ (l.map f).flatten := by
  induction l with
  | nil => intro acc; simp
  | cons c cs ih => intro acc; simp [ih, List.append_assoc]

theorem run_eq_sort_flatten (ex : List String)
    (conns : List (String × Except Unit (List Listing))) :
    JobSearchAgent.run ex conns
      = sortJobs ((conns.map (processConnector ex)).flatten) := by
  simp only [JobSearchAgent.run, foldl_append_eq_flatten, List.nil_append]

theorem collectPages_append_error (batches : List (List Listing))
    (rest : List (Except Unit (List Listing))) :
    JobConnector.collectPages (batches.map Except.ok ++ Except.error () :: rest)
      = batches.flatten := by
  induction batches with
  | nil => simp [JobConnector.collectPages]
  | cons b bs ih => simp [JobConnector.collectPages, ih]

theorem connector_search_state (auth_ok : Bool) (sid : Nat)
    (pages : List (Except Unit (List Listing)))
    (st : JobConnector.ConnectorState) :
    (JobConnector.search_jobs auth_ok sid pages st).2.driver = none ∧
    (st.driver = none →
      sid ∈ (JobConnector.search_jobs auth_ok sid pages st).2.released) ∧
    (∀ d, st.driver = some d →
      d ∈ (JobConnector.search_jobs auth_ok sid pages st).2.released) := by
  cases hd : st.driver <;> cases auth_ok <;>
    simp [JobConnector.search_jobs, JobConnector.authenticate, hd]

/-! ### Claim theorems -/

/-- C1: End-to-end scenario: with exclude_keywords = ["PHP"] and two
connectors, where connector "A" returns the single listing
{title: "Python Developer", datePosted: "2024-01-10"} and connector "B"
returns the single listing {title: "PHP Developer", datePosted: "2024-01-12"},
the pipeline returns exactly one listing, titled "Python Developer" and
stamped with source "A". -/
theorem pipeline_end_to_end_scenario :
    JobSearchAgent.run ["PHP"]
        [("A", Except.ok [jobPy]), ("B", Except.ok [jobPhp])]
      = [stampPlatform "A" jobPy] ∧
    (stampPlatform "A" jobPy).title = "Python Developer" ∧
    (stampPlatform "A" jobPy).platform = some "A" := by
  refine ⟨?_, rfl, rfl⟩
  have h : ([("A", Except.ok [jobPy]), ("B", Except.ok [jobPhp])].foldl
      (fun acc conn => acc ++ processConnector ["PHP"] conn) ([] : List Listing))
      = [stampPlatform "A" jobPy] := by decide
  simp only [JobSearchAgent.run, h, sortJobs]
  exact List.mergeSort_singleton _

/-- C3: Normalizer totality with defaults: `normalize_job_data` is a total
function; on every raw mapping each canonical field of its output equals the
raw value when present and otherwise the default (empty string, empty list,
or false — never null), and on the empty mapping every field is the
default. -/
theorem normalize_job_data_total_defaults :
    ∀ raw : RawListing,
      (BaseConnector.normalize_job_data raw).id = raw.id.getD "" ∧
      (BaseConnector.normalize_job_data raw).title = raw.title.getD "" ∧
      (BaseConnector.normalize_job_data raw).company = raw.company.getD "" ∧
      (BaseConnector.normalize_job_data raw).location = raw.location.getD "" ∧
      (BaseConnector.normalize_job_data raw).description
        = raw.description.getD "" ∧
      (BaseConnector.normalize_job_data raw).url = raw.url.getD "" ∧
      (BaseConnector.normalize_job_data raw).salary = raw.salary.getD "" ∧
      (BaseConnector.normalize_job_data raw).date_posted
        = raw.date_posted.getD "" ∧
      (BaseConnector.normalize_job_data raw).job_type = raw.job_type.getD "" ∧
      (BaseConnector.normalize_job_data raw).experience_level
        = raw.experience_level.getD "" ∧
      (BaseConnector.normalize_job_data raw).skills = raw.skills.getD [] ∧
      (BaseConnector.normalize_job_data raw).is_remote
        = raw.is_remote.getD false ∧
      BaseConnector.normalize_job_data {} =
        { id := "", title := "", company := "", location := "",
          description := "", url := "", salary := "", date_posted := "",
          job_type := "", experience_level := "", skills := [],
          is_remote := false, platform := none } :=
  fun _ =>
    ⟨rfl, rfl, rfl, rfl, rfl, rfl, rfl, rfl, rfl, rfl, rfl, rfl, rfl⟩

/-- C4: Filter exclusion rule: with a non-empty exclusion list, the filter
stage keeps exactly the listings matched by no exclusion keyword, where a
keyword matches iff its lowercasing is a substring of the lowercased title or
of the lowercased description; concretely, with exclude_keywords = ["php"]
the listing titled "Senior PHP Developer" is dropped and the listing titled
"Senior Developer" with "graphql" in its description is kept. -/
theorem filter_results_exclusion_rule :
    ∀ (exclude_keywords : List String) (l : List Listing) (job : Listing),
      exclude_keywords ≠ [] →
      (JobSearchAgent.filter_results exclude_keywords l
        = l.filter fun j => !excludedBy exclude_keywords j) ∧
      (excludedBy exclude_keywords job = true ↔
        ∃ kw ∈ exclude_keywords,
          kw.toLower.data <:+: job.title.toLower.data ∨
          kw.toLower.data <:+: job.description.toLower.data) ∧
      JobSearchAgent.filter_results ["php"] [phpJob] = [] ∧
      JobSearchAgent.filter_results ["php"] [gqlJob] = [gqlJob] := by
  intro ex l job hne
  have hemp : ex.isEmpty = false := by
    cases ex with
    | nil => exact absurd rfl hne
    | cons a as => rfl
  refine ⟨?_, ?_, by decide, by decide⟩
  · simp [JobSearchAgent.filter_results, hemp]
  · simp [excludedBy, List.any_eq_true, containsSub_iff, pyLower_eq_toLower,
      Bool.or_eq_true]

/-- C4 witness: the exclusion rule applied at the concrete spec example. -/
theorem filter_results_exclusion_rule_witness :
    (["php"] : List String) ≠ [] ∧
    JobSearchAgent.filter_results ["php"] [phpJob] = [] :=
  ⟨by decide,
    (filter_results_exclusion_rule ["php"] [phpJob] phpJob (by decide)).2.2.1⟩

/-- C5: Filter idempotence: filtering an already-filtered sequence with the
same exclusion list removes nothing further. -/
theorem filter_results_idempotent :
    ∀ (exclude_keywords : List String) (l : List Listing),
      JobSearchAgent.filter_results exclude_keywords
          (JobSearchAgent.filter_results exclude_keywords l)
        = JobSearchAgent.filter_results exclude_keywords l := by
  intro ex l
  unfold JobSearchAgent.filter_results
  by_cases h : ex.isEmpty <;> simp [h, List.filter_filter]

/-- C2: Partial-failure isolation: a connector whose search raises
contributes nothing, and whenever a connector named `name` succeeds with
listings `L`, every listing of `L` that survives filtering appears (stamped
with `name`) in the pipeline's final result, regardless of the other
connectors' failures. -/
theorem pipeline_isolates_connector_failure :
    ∀ (exclude_keywords : List String)
      (conns : List (String × Except Unit (List Listing)))
      (name : String) (L : List Listing) (err : Unit),
      processConnector exclude_keywords (name, Except.error err) = [] ∧
      ((name, Except.ok L) ∈ conns →
        ∀ j ∈ JobSearchAgent.filter_results exclude_keywords L,
          stampPlatform name j ∈ JobSearchAgent.run exclude_keywords conns) := by
  intro ex conns name L err
  refine ⟨rfl, ?_⟩
  intro hmem j hj
  rw [run_eq_sort_flatten, mem_sortJobs]
  apply List.mem_flatten.mpr
  refine ⟨processConnector ex (name, Except.ok L),
    List.mem_map_of_mem _ hmem, ?_⟩
  simp only [processConnector]
  exact List.mem_map_of_mem _ hj

/-- C2 witness: connector "A" fails, connector "B" succeeds with one
surviving listing, which reaches the final result. -/
theorem pipeline_isolates_connector_failure_witness :
    (("B", Except.ok [jobPy])
        ∈ [(("A" : String), (Except.error () : Except Unit (List Listing))),
           ("B", Except.ok [jobPy])]) ∧
    jobPy ∈ JobSearchAgent.filter_results ["PHP"] [jobPy] ∧
    stampPlatform "B" jobPy ∈ JobSearchAgent.run ["PHP"]
      [("A", Except.error ()), ("B", Except.ok [jobPy])] := by
  refine ⟨by simp, by decide, ?_⟩
  exact (pipeline_isolates_connector_failure ["PHP"]
    [("A", Except.error ()), ("B", Except.ok [jobPy])] "B" [jobPy] ()).2
    (by simp) jobPy (by decide)

/-- C6: Final ordering: the pipeline's final sequence is the accumulated
sequence sorted by date_posted descending; the sort is such that a listing
with empty date_posted never precedes one with a non-empty date_posted, and
the listings sharing any fixed date_posted value keep their original
relative order (stability). -/
theorem run_final_ordering :
    ∀ (exclude_keywords : List String)
      (conns : List (String × Except Unit (List Listing)))
      (l : List Listing) (d : String),
      JobSearchAgent.run exclude_keywords conns
        = sortJobs ((conns.map (processConnector exclude_keywords)).flatten) ∧
      (sortJobs l).Pairwise (fun a b => b.date_posted ≤ a.date_posted) ∧
      (sortJobs l).Pairwise
        (fun a b => a.date_posted = "" → b.date_posted = "") ∧
      (sortJobs l).filter (fun j => decide (j.date_posted = d))
        = l.filter (fun j => decide (j.date_posted = d)) := by
  intro ex conns l d
  have hpair : (sortJobs l).Pairwise
      fun a b => b.date_posted ≤ a.date_posted :=
    List.Pairwise.imp
      (fun h => by simpa [dateLe, decide_eq_true_iff] using h)
      (sortJobs_pairwise l)
  refine ⟨run_eq_sort_flatten ex conns, hpair, ?_, sortJobs_filter_date l d⟩
  exact List.Pairwise.imp
    (fun h ha => string_le_empty _ (ha ▸ h)) hpair

/-- C7: Source stamping invariant: the stamp unconditionally overwrites the
platform field, and every listing in the pipeline's output carries
`platform = some name` for the registered connector whose processed batch
produced it. -/
theorem run_stamps_platform :
    ∀ (exclude_keywords : List String)
      (conns : List (String × Except Unit (List Listing))) (j : Listing),
      (∀ (nm : String) (job : Listing),
        (stampPlatform nm job).platform = some nm) ∧
      (j ∈ JobSearchAgent.run exclude_keywords conns →
        ∃ conn ∈ conns, j ∈ processConnector exclude_keywords conn ∧
          j.platform = some conn.1) := by
  intro ex conns j
  refine ⟨fun nm job => rfl, ?_⟩
  intro hj
  rw [run_eq_sort_flatten, mem_sortJobs] at hj
  obtain ⟨batch, hbatch, hjb⟩ := List.mem_flatten.mp hj
  obtain ⟨conn, hconn, rfl⟩ := List.mem_map.mp hbatch
  refine ⟨conn, hconn, hjb, ?_⟩
  obtain ⟨name, res⟩ := conn
  cases res with
  | error e => simp [processConnector] at hjb
  | ok L =>
      simp only [processConnector] at hjb
      obtain ⟨j0, hj0, rfl⟩ := List.mem_map.mp hjb
      rfl

/-- C7 witness: the stamped listing in the end-to-end run carries its
connector's name. -/
theorem run_stamps_platform_witness :
    stampPlatform "A" jobPy
        ∈ JobSearchAgent.run ["PHP"] [("A", Except.ok [jobPy])] ∧
    ∃ conn ∈ [(("A" : String), Except.ok [jobPy])],
      stampPlatform "A" jobPy ∈ processConnector ["PHP"] conn ∧
      (stampPlatform "A" jobPy).platform = some conn.1 := by
  have hfold : ([(("A" : String), Except.ok [jobPy])].foldl
      (fun acc conn => acc ++ processConnector ["PHP"] conn)
      ([] : List Listing)) = [stampPlatform "A" jobPy] := by decide
  have hrun : JobSearchAgent.run ["PHP"] [("A", Except.ok [jobPy])]
      = [stampPlatform "A" jobPy] := by
    simp only [JobSearchAgent.run, hfold, sortJobs]
    exact List.mergeSort_singleton _
  have hmem : stampPlatform "A" jobPy
      ∈ JobSearchAgent.run ["PHP"] [("A", Except.ok [jobPy])] := by
    rw [hrun]; exact List.mem_singleton.mpr rfl
  exact ⟨hmem, (run_stamps_platform ["PHP"] _ _).2 hmem⟩

theorem connector_search_auth_fail (sid : Nat)
    (pages : List (Except Unit (List Listing)))
    (st : JobConnector.ConnectorState) (h : st.driver = none) :
    (JobConnector.search_jobs false sid pages st).1 = [] := by
  simp [JobConnector.search_jobs, JobConnector.authenticate, h]

theorem connector_search_error_trunc (sid : Nat)
    (batches : List (List Listing))
    (rest : List (Except Unit (List Listing)))
    (st : JobConnector.ConnectorState) :
    (JobConnector.search_jobs true sid
        (batches.map Except.ok ++ Except.error () :: rest) st).1
      = batches.flatten := by
  cases hd : st.driver <;>
    simp [JobConnector.search_jobs, JobConnector.authenticate, hd,
      collectPages_append_error]

/-- C8 counterexample: a search on which a fatal error is raised after one
page of listings was already extracted returns that page, not the empty
sequence — so "on any fatal error it returns an empty sequence" fails as
stated. -/
theorem search_jobs_error_nonempty_cex :
    (LinkedinConnector.search_jobs true 0
        [Except.ok [jobPy], Except.error ()]
        { driver := none, released := [] }).1 ≠ [] ∧
    (LinkedinConnector.search_jobs true 0
        [Except.ok [jobPy], Except.error ()]
        { driver := none, released := [] }).1 = [jobPy] := by
  constructor
  · decide
  · decide

/-- C8 (amended): `search_jobs` never propagates an exception (it always
returns a list of listings); on authentication failure it returns the empty
sequence; on a fatal error raised mid-search it returns exactly the listings
accumulated before the error — empty when the error precedes any
extraction. -/
theorem search_jobs_error_containment :
    ∀ (sid : Nat) (st : JobConnector.ConnectorState)
      (pages : List (Except Unit (List Listing)))
      (batches : List (List Listing))
      (rest : List (Except Unit (List Listing))),
      (st.driver = none →
        (LinkedinConnector.search_jobs false sid pages st).1 = []) ∧
      (LinkedinConnector.search_jobs true sid
          (batches.map Except.ok ++ Except.error () :: rest) st).1
        = batches.flatten ∧
      (st.driver = none →
        (IndeedConnector.search_jobs false sid pages st).1 = []) ∧
      (IndeedConnector.search_jobs true sid
          (batches.map Except.ok ++ Except.error () :: rest) st).1
        = batches.flatten := by
  intro sid st pages batches rest
  exact ⟨connector_search_auth_fail sid pages st,
    connector_search_error_trunc sid batches rest st,
    connector_search_auth_fail sid pages st,
    connector_search_error_trunc sid batches rest st⟩

/-- C8 witness: on a concrete failed authentication the search returns the
empty sequence, and a mid-search error keeps the one extracted batch. -/
theorem search_jobs_error_containment_witness :
    ({ driver := none, released := [] } :
        JobConnector.ConnectorState).driver = none ∧
    (LinkedinConnector.search_jobs false 0 []
        { driver := none, released := [] }).1 = [] ∧
    (IndeedConnector.search_jobs true 0
        [Except.ok [jobPy], Except.error ()]
        { driver := none, released := [] }).1 = [jobPy] :=
  ⟨rfl,
    (search_jobs_error_containment 0 { driver := none, released := [] }
      [] [[jobPy]] []).1 rfl,
    (search_jobs_error_containment 0 { driver := none, released := [] }
      [] [[jobPy]] []).2.2.2⟩

/-- C9: Session release invariant: on every exit path of `search_jobs` —
normal return, authentication failure, or a mid-search exception — the
driver field ends reset to the unacquired state, the session acquired during
the call is released, and a session held on entry is released as well; this
holds for the LinkedIn, Indeed, Upwork and Fiverr connectors alike. -/
theorem search_jobs_releases_driver :
    ∀ (auth_ok : Bool) (sid : Nat)
      (pages : List (Except Unit (List Listing)))
      (st : JobConnector.ConnectorState),
      ((LinkedinConnector.search_jobs auth_ok sid pages st).2.driver = none ∧
        (st.driver = none →
          sid ∈ (LinkedinConnector.search_jobs auth_ok sid pages
            st).2.released) ∧
        (∀ d, st.driver = some d →
          d ∈ (LinkedinConnector.search_jobs auth_ok sid pages
            st).2.released)) ∧
      ((IndeedConnector.search_jobs auth_ok sid pages st).2.driver = none ∧
        (st.driver = none →
          sid ∈ (IndeedConnector.search_jobs auth_ok sid pages
            st).2.released) ∧
        (∀ d, st.driver = some d →
          d ∈ (IndeedConnector.search_jobs auth_ok sid pages
            st).2.released)) ∧
      ((UpworkConnector.search_jobs auth_ok sid pages st).2.driver = none ∧
        (st.driver = none →
          sid ∈ (UpworkConnector.search_jobs auth_ok sid pages
            st).2.released) ∧
        (∀ d, st.driver = some d →
          d ∈ (UpworkConnector.search_jobs auth_ok sid pages
            st).2.released)) ∧
      ((FiverrConnector.search_jobs auth_ok sid pages st).2.driver = none ∧
        (st.driver = none →
          sid ∈ (FiverrConnector.search_jobs auth_ok sid pages
            st).2.released) ∧
        (∀ d, st.driver = some d →
          d ∈ (FiverrConnector.search_jobs auth_ok sid pages
            st).2.released)) := by
  intro auth_ok sid pages st
  exact ⟨connector_search_state auth_ok sid pages st,
    connector_search_state auth_ok sid pages st,
    connector_search_state auth_ok sid pages st,
    connector_search_state auth_ok sid pages st⟩

/-- C9 witness: a session held on entry is released and the driver field is
reset, on a concrete erroring run. -/
theorem search_jobs_releases_driver_witness :
    ({ driver := some 3, released := [] } :
        JobConnector.ConnectorState).driver = some 3 ∧
    3 ∈ (LinkedinConnector.search_jobs true 0 [Except.error ()]
        { driver := some 3, released := [] }).2.released ∧
    (UpworkConnector.search_jobs true 0 [Except.error ()]
        { driver := some 3, released := [] }).2.driver = none :=
  ⟨rfl,
    (search_jobs_releases_driver true 0 [Except.error ()]
      { driver := some 3, released := [] }).1.2.2 3 rfl,
    (search_jobs_releases_driver true 0 [Except.error ()]
      { driver := some 3, released := [] }).2.2.1.1⟩

/-- C10: Filter preserves order and content: the filter stage's output is a
subsequence of its input — kept listings are the identical records, in their
original relative order, with nothing added or duplicated. -/
theorem filter_results_sublist :
    ∀ (exclude_keywords : List String) (l : List Listing),
      List.Sublist (JobSearchAgent.filter_results exclude_keywords l) l := by
  intro ex l
  unfold JobSearchAgent.filter_results
  split
  · exact List.Sublist.refl l
  · exact List.filter_sublist l
